import Mathlib

/-!
Verification of the hotkey-debounce and visibility-toggle logic of
`overlay_rules.py` (mauskontrolle): a shallow embedding of the
`KeyboardToggleListener`, `RulesOverlay` and `main` bootstrap, with
theorems settling the specification's claims about them.

Time is modelled by the rationals (the monotonic clock readings), key
identifiers by an inductive type mirroring pynput's `KeyCode`-with-char
versus special keys, and the mutex-guarded body of each handler by a
single atomic Lean function on the listener state.
-/

namespace OverlayRules

/-- A key as delivered by pynput: a `KeyCode` carrying a character, or a
special key (shift, ctrl, ...) identified here by a number. -/
inductive Key where
  | keyCode (c : Char)
  | special (n : Nat)
deriving DecidableEq, Repr

/-- The test `isinstance(k, keyboard.KeyCode) and k.char == "1"` of
`_is_one_key`, per key. -/
def Key.isOne : Key → Bool
  | .keyCode c => c = '1'
  | .special _ => false

/-- State of a `KeyboardToggleListener`: whether the pynput `keyboard`
module imported (`keyboard is not None`), the `_pressed` set and
`_last_toggle_monotonic`.  `_debounce_seconds` is the constant
`debounceSeconds` below. -/
structure ListenerState where
  kb : Bool
  pressed : Finset Key
  lastToggle : ℚ
deriving DecidableEq

/-- The constant `self._debounce_seconds = 0.4`. -/
def debounceSeconds : ℚ := 2/5

/-- Model of `KeyboardToggleListener.__init__`: empty pressed set,
`_last_toggle_monotonic = 0.0`. -/
def initListener (kb : Bool) : ListenerState :=
  { kb := kb, pressed := ∅, lastToggle := 0 }

/-- Model of `KeyboardToggleListener._is_one_key`: `False` when the keyboard
module is missing, otherwise whether any currently pressed key is the
character key "1". -/
def ListenerState.isOneKey (s : ListenerState) : Bool :=
  s.kb && decide (∃ k ∈ s.pressed, k.isOne = true)

/-- Result of one `_on_press` call: the post state and whether the
callback `_on_toggle` was invoked. -/
structure PressResult where
  state : ListenerState
  fired : Bool
deriving DecidableEq

/-- Model of `KeyboardToggleListener._on_press`: under the lock, add the key to
the pressed set; if some pressed key is "1" and the debounce interval
has elapsed since the last accepted toggle, record `now` and invoke the
callback. -/
def onPress (s : ListenerState) (key : Key) (now : ℚ) : PressResult :=
  let s1 : ListenerState := { s with pressed := insert key s.pressed }
  if s1.isOneKey then
    if debounceSeconds ≤ now - s1.lastToggle then
      { state := { s1 with lastToggle := now }, fired := true }
    else
      { state := s1, fired := false }
  else
    { state := s1, fired := false }

/-- Model of `KeyboardToggleListener._on_release`: under the lock, discard the
key from the pressed set.  The body contains no call to the callback
and does not touch the timestamp. -/
def onRelease (s : ListenerState) (key : Key) : ListenerState :=
  { s with pressed := s.pressed.erase key }

/-- A key event as seen by the listener thread: a press at a monotonic
clock reading, or a release. -/
inductive KeyEvent where
  | press (k : Key) (now : ℚ)
  | release (k : Key)

/-- One listener callback dispatch: the post state and whether the
toggle callback was invoked (a release never invokes it). -/
def stepEvent (s : ListenerState) : KeyEvent → ListenerState × Bool
  | .press k now => ((onPress s k now).state, (onPress s k now).fired)
  | .release k => (onRelease s k, false)

/-- Run a sequence of press events of the toggle key "1" at the given
clock readings, returning the final state and the per-event fired
flags. -/
def runOnes (s : ListenerState) : List ℚ → ListenerState × List Bool
  | [] => (s, [])
  | t :: ts =>
    let r := onPress s (Key.keyCode '1') t
    let p := runOnes r.state ts
    (p.1, r.fired :: p.2)

/-- A listener state in which a "1" `KeyCode` is currently held and the
debounce window has long expired. -/
def heldOne : ListenerState :=
  { kb := true, pressed := {Key.keyCode '1'}, lastToggle := 0 }

/-- Geometry of the primary screen's available area, as far as
`_position_window` reads it: its left and top coordinates. -/
structure Geometry where
  left : ℤ
  top : ℤ

/-- Observable state of a `RulesOverlay`: the `_is_visible` flag, the
window position set by `move`, and whether the Qt window is currently
shown (`show`/`hide`). -/
structure OverlayState where
  isVisible : Bool
  pos : ℤ × ℤ
  shown : Bool
deriving DecidableEq

/-- The `margin = 24` of `_position_window`. -/
def overlayMargin : ℤ := 24

/-- Model of `RulesOverlay.__init__`: `_is_visible = False`, position the window
at the available area's top-left corner plus the margin
(`_position_window`), then `hide()`. -/
def initOverlay (g : Geometry) : OverlayState :=
  { isVisible := false
  , pos := (g.left + overlayMargin, g.top + overlayMargin)
  , shown := false }

/-- Model of `RulesOverlay.toggle_visibility`: flip `_is_visible`; show (and
raise) the window when it became true, hide it otherwise.  The position
is not touched. -/
def toggleVisibility (s : OverlayState) : OverlayState :=
  let v := !s.isVisible
  { s with isVisible := v, shown := v }

/-- The warning `KeyboardToggleListener.start` prints when pynput
failed to import. -/
def pynputWarning : String :=
  "[overlay] pynput not available. Install requirements or switch to X11."

/-- Model of `KeyboardToggleListener.start`: if the listener could not be
constructed (pynput missing), print a warning and return without
starting anything; otherwise start the listener thread.  Returns the
printed lines and whether the listener was started; the function is
total, so the call never raises. -/
def startListener (kb : Bool) : List String × Bool :=
  if kb then ([], true) else ([pynputWarning], false)

/-- The toggle invocations scheduled by `main`'s `initial_hint`:
`QTimer.singleShot(300, initial_hint)` toggles at 0.3 s and schedules
the second toggle 2000 ms later, at 2.3 s.  These run on the UI thread
regardless of whether the key listener started. -/
def hintToggleTimes : List ℚ := [3/10, 3/10 + 2]

/-- Whether the overlay window is shown at time `t`, given the times at
which `toggle_visibility` has been invoked: the overlay starts hidden
and each invocation at or before `t` flips it. -/
def visibleAt (toggles : List ℚ) (t : ℚ) : Bool :=
  (toggles.countP fun u => decide (u ≤ t)) % 2 == 1

/-- The externally visible steps `main` takes, in order. -/
inductive MainAction where
  | warnWayland
  | startL
  | execLoop
  | stopL
deriving DecidableEq, Repr

/-- Python `try`/`finally` over a body that yields a trace and either a
value or a propagating exception: the finaliser's trace runs after the
body in both cases, and the body's outcome (value or exception) is what
leaves the block. -/
def tryFinallyTrace (body : List MainAction × Except String Int)
    (fin : List MainAction) : List MainAction × Except String Int :=
  (body.1 ++ fin, body.2)

/-- Model of `main`: warn about Wayland, build the window and listener, start
the listener, then run `app.exec()` inside `try`/`finally` whose
finaliser is `listener.stop()`, and return `int(rc)` (the identity on
the integer return code) or let the exception propagate.  The outcome
of `app.exec()` is the parameter. -/
def mainModel (execOutcome : Except String Int) :
    List MainAction × Except String Int :=
  let t := tryFinallyTrace ([MainAction.execLoop], execOutcome) [MainAction.stopL]
  ([MainAction.warnWayland, MainAction.startL] ++ t.1, t.2)

/-- Pressing "1" from a state with the keyboard module present: the
key joins the pressed set, and the callback fires exactly when the
debounce interval has elapsed, in which case the timestamp becomes
`now`. -/
theorem onPress_one (s : ListenerState) (h : s.kb = true) (now : ℚ) :
    onPress s (Key.keyCode '1') now =
      if debounceSeconds ≤ now - s.lastToggle then
        { state := { kb := s.kb, pressed := insert (Key.keyCode '1') s.pressed
                   , lastToggle := now }, fired := true }
      else
        { state := { kb := s.kb, pressed := insert (Key.keyCode '1') s.pressed
                   , lastToggle := s.lastToggle }, fired := false } := by
  have hone : (ListenerState.mk s.kb (insert (Key.keyCode '1') s.pressed)
      s.lastToggle).isOneKey = true := by
    simp only [ListenerState.isOneKey, h, Bool.true_and, decide_eq_true_eq]
    exact ⟨Key.keyCode '1', Finset.mem_insert_self _ _, rfl⟩
  unfold onPress
  by_cases h2 : debounceSeconds ≤ now - s.lastToggle
  · simp [hone, h2]
  · simp [hone, h2]

/-- If every event of the run lies strictly inside the debounce window
of the current timestamp, no event fires and the timestamp survives. -/
theorem runOnes_none_fire (ts : List ℚ) (s : ListenerState) (h : s.kb = true)
    (hts : ∀ t ∈ ts, t - s.lastToggle < debounceSeconds) :
    (runOnes s ts).2 = List.replicate ts.length false ∧
      (runOnes s ts).1.lastToggle = s.lastToggle := by
  induction ts generalizing s with
  | nil => simp [runOnes]
  | cons t ts ih =>
    have hlt : ¬ debounceSeconds ≤ t - s.lastToggle := by
      have := hts t (by simp)
      linarith
    have hstep := onPress_one s h t
    rw [if_neg hlt] at hstep
    have ihr := ih { kb := s.kb, pressed := insert (Key.keyCode '1') s.pressed
                   , lastToggle := s.lastToggle } h
      (by intro u hu; exact hts u (by simp [hu]))
    simp only [runOnes, hstep] at *
    exact ⟨by simp [List.replicate, ihr.1], ihr.2⟩

/-- C2 counterexample: the burst `[0.4, 0.7, 1.0]` of toggle-key
presses has consecutive spacings 0.3 < 0.4, yet the callback fires
twice (at 0.4 and at 1.0), not exactly once for the whole burst; and
the single-event sequence `[0.1]` is (vacuously) spaced ≥ 0.4 apart,
yet fires zero times rather than once per qualifying event. -/
theorem C2_counterexample :
    List.Chain' (fun a b : ℚ => b - a < debounceSeconds) [2/5, 7/10, 1] ∧
      ((runOnes (initListener true) [2/5, 7/10, 1]).2.count true) = 2 ∧
      ((runOnes (initListener true) [1/10]).2.count true) = 0 := by
  refine ⟨?_, ?_, ?_⟩
  · norm_num [List.chain'_cons, debounceSeconds]
  · norm_num [runOnes, onPress, initListener, ListenerState.isOneKey,
      debounceSeconds, Key.isOne, List.count_cons]
  · norm_num [runOnes, onPress, initListener, ListenerState.isOneKey,
      debounceSeconds, Key.isOne, List.count_cons]

/-- C2 amended: (a) for toggle-key presses whose clock readings,
prepended with the initial timestamp 0, are each at least 0.4 apart,
every event fires (one callback per event); (b) a burst whose first
event is at least 0.4 after the initial timestamp and whose remaining
events all fall strictly within 0.4 s of the first fires exactly
once. -/
theorem C2_amended :
    (∀ ts : List ℚ,
        List.Chain' (fun a b => a + debounceSeconds ≤ b) (0 :: ts) →
        ((runOnes (initListener true) ts).2.count true) = ts.length) ∧
    (∀ (t0 : ℚ) (rest : List ℚ), debounceSeconds ≤ t0 →
        (∀ t ∈ rest, t - t0 < debounceSeconds) →
        ((runOnes (initListener true) (t0 :: rest)).2.count true) = 1) := by
  constructor
  · have main : ∀ (ts : List ℚ) (s : ListenerState), s.kb = true →
        List.Chain' (fun a b => a + debounceSeconds ≤ b) (s.lastToggle :: ts) →
        ((runOnes s ts).2.count true) = ts.length := by
      intro ts
      induction ts with
      | nil => intro s _ _; simp [runOnes]
      | cons t ts ih =>
        intro s hkb hch
        rw [List.chain'_cons] at hch
        have hle : debounceSeconds ≤ t - s.lastToggle := by
          have := hch.1; linarith
        have hstep := onPress_one s hkb t
        rw [if_pos hle] at hstep
        have ihr := ih { kb := s.kb, pressed := insert (Key.keyCode '1') s.pressed
                       , lastToggle := t } hkb hch.2
        simp only [runOnes, hstep] at *
        simp [List.count_cons, ihr]
    intro ts hch
    exact main ts (initListener true) rfl hch
  · intro t0 rest h0 hrest
    have hle : debounceSeconds ≤ t0 - (initListener true).lastToggle := by
      simp [initListener]; linarith
    have hstep := onPress_one (initListener true) rfl t0
    rw [if_pos hle] at hstep
    have hnone := runOnes_none_fire rest
      { kb := true, pressed := insert (Key.keyCode '1') (initListener true).pressed
      , lastToggle := t0 } rfl (by intro u hu; exact hrest u hu)
    simp only [runOnes, initListener, hstep] at *
    have h1 : (runOnes
        { kb := true, pressed := ({Key.keyCode '1'} : Finset Key), lastToggle := t0 }
        rest).2 = List.replicate rest.length false := by
      simpa using hnone.1
    simp [List.count_cons, h1, List.count_eq_zero, List.mem_replicate]

/-- Witness for C2 amended: the spaced run `[0.5, 1]` fires twice and
the burst `[0.5, 0.7]` fires once. -/
theorem C2_witness :
    ((runOnes (initListener true) [1/2, 1]).2.count true) = 2 ∧
      ((runOnes (initListener true) [1/2, 7/10]).2.count true) = 1 :=
  ⟨C2_amended.1 [1/2, 1]
      (by norm_num [List.chain'_cons, debounceSeconds]),
   C2_amended.2 (1/2) [7/10]
      (by norm_num [debounceSeconds])
      (by norm_num [debounceSeconds])⟩

/-- C1: the debounce invariant of `_on_press`.  The callback is invoked
only if `now - last >= 0.4`, and whenever it is invoked the stored
timestamp is updated to `now` in the same atomic step (the model's
`onPress` is the single mutex-guarded region of the code). -/
theorem C1_debounce_invariant (s : ListenerState) (k : Key) (now : ℚ)
    (h : (onPress s k now).fired = true) :
    debounceSeconds ≤ now - s.lastToggle ∧
      (onPress s k now).state.lastToggle = now := by
  unfold onPress at h ⊢
  by_cases h1 : (ListenerState.mk s.kb (insert k s.pressed) s.lastToggle).isOneKey = true
  · by_cases h2 : debounceSeconds ≤ now - s.lastToggle
    · simp [h1, h2]
    · simp [h1, h2] at h
  · simp [h1] at h

/-- Witness for C1 at a concrete input: pressing "1" at time 1 from the
fresh listener state fires the callback. -/
theorem C1_debounce_invariant_witness :
    (onPress (initListener true) (Key.keyCode '1') 1).fired = true ∧
      (debounceSeconds ≤ (1 : ℚ) - (initListener true).lastToggle ∧
        (onPress (initListener true) (Key.keyCode '1') 1).state.lastToggle = 1) :=
  ⟨by norm_num [onPress, initListener, ListenerState.isOneKey, debounceSeconds, Key.isOne],
   C1_debounce_invariant (initListener true) (Key.keyCode '1') 1
     (by norm_num [onPress, initListener, ListenerState.isOneKey, debounceSeconds, Key.isOne])⟩

/-- C3 counterexample: with a "1" `KeyCode` already held (`heldOne`),
pressing the different key `'a'` invokes the callback, because
`_on_press` tests whether any pressed key is "1", not whether the key
just pressed is. -/
theorem C3_counterexample :
    Key.keyCode 'a' ≠ Key.keyCode '1' ∧
      (onPress heldOne (Key.keyCode 'a') 1).fired = true := by
  constructor
  · simp
  · norm_num [onPress, heldOne, ListenerState.isOneKey, debounceSeconds, Key.isOne]

/-- C3 amended: releasing any key removes it from the pressed set; and
a press of a key other than "1" never invokes the callback provided no
"1" `KeyCode` is already held (the callback can fire only when, after
the press, some pressed key is "1"). -/
theorem C3_amended :
    (∀ (s : ListenerState) (k : Key), (onRelease s k).pressed = s.pressed.erase k) ∧
    (∀ (s : ListenerState) (k : Key) (now : ℚ), k.isOne = false →
        (∀ j ∈ s.pressed, j.isOne = false) →
        (onPress s k now).fired = false) := by
  constructor
  · intro s k; rfl
  · intro s k now hk hs
    have hone : (ListenerState.mk s.kb (insert k s.pressed) s.lastToggle).isOneKey = false := by
      simp only [ListenerState.isOneKey, Bool.and_eq_false_iff, decide_eq_false_iff_not]
      right
      rintro ⟨j, hj, hj1⟩
      rcases Finset.mem_insert.mp hj with rfl | hj
      · rw [hk] at hj1; exact Bool.false_ne_true hj1
      · rw [hs j hj] at hj1; exact Bool.false_ne_true hj1
    unfold onPress
    simp [hone]

/-- Witness for C3 amended at concrete inputs: releasing "1" from
`heldOne` leaves the erased set, and pressing `'a'` from the fresh
state (no "1" held) does not fire. -/
theorem C3_amended_witness :
    (onRelease heldOne (Key.keyCode '1')).pressed
        = heldOne.pressed.erase (Key.keyCode '1') ∧
      (onPress (initListener true) (Key.keyCode 'a') 1).fired = false :=
  ⟨C3_amended.1 heldOne (Key.keyCode '1'),
   C3_amended.2 (initListener true) (Key.keyCode 'a') 1 (by simp [Key.isOne])
     (by simp [initListener])⟩

/-- C4 counterexample: with the clock readings taken literally as 0,
0.1 and 0.5 and the initial timestamp 0.0 of `__init__`, the press at
t = 0 does not fire (0 - 0 < 0.4): only the press at t = 0.5 fires, one
invocation rather than the claimed two. -/
theorem C4_counterexample :
    (runOnes (initListener true) [0, 1/10, 1/2]).2 = [false, false, true] := by
  norm_num [runOnes, onPress, initListener, ListenerState.isOneKey,
    debounceSeconds, Key.isOne]

/-- C4 amended: if the monotonic clock reads `m0 ≥ 0.4` at the first
simulated press (events at `m0`, `m0 + 0.1`, `m0 + 0.5`), exactly two
toggle invocations result, one for the first event and one for the
third. -/
theorem C4_amended (m0 : ℚ) (h : debounceSeconds ≤ m0) :
    (runOnes (initListener true) [m0, m0 + 1/10, m0 + 1/2]).2
      = [true, false, true] := by
  have h1 : debounceSeconds ≤ m0 - (initListener true).lastToggle := by
    simp [initListener]; linarith
  have hstep1 := onPress_one (initListener true) rfl m0
  rw [if_pos h1] at hstep1
  have h2 : ¬ debounceSeconds ≤ (m0 + 1/10) - m0 := by
    norm_num [debounceSeconds]
  have hstep2 := onPress_one
    { kb := true, pressed := insert (Key.keyCode '1') (initListener true).pressed,
      lastToggle := m0 } rfl (m0 + 1/10)
  rw [if_neg (by simpa using h2)] at hstep2
  have h3 : debounceSeconds ≤ (m0 + 1/2) - m0 := by
    norm_num [debounceSeconds]
  have hstep3 := onPress_one
    { kb := true,
      pressed := insert (Key.keyCode '1')
        (insert (Key.keyCode '1') (initListener true).pressed),
      lastToggle := m0 } rfl (m0 + 1/2)
  rw [if_pos (by simpa using h3)] at hstep3
  simp only [initListener] at hstep1 hstep2 hstep3
  simp at hstep1 hstep2 hstep3
  simp [runOnes, initListener, hstep1, hstep2, hstep3]

/-- Witness for C4 amended with the clock starting at 1. -/
theorem C4_amended_witness :
    (runOnes (initListener true) [1, 1 + 1/10, 1 + 1/2]).2
      = [true, false, true] :=
  C4_amended 1 (by norm_num [debounceSeconds])

/-- C9: `_on_release` is a pure removal: it never invokes the callback,
leaves the timestamp (and the keyboard-availability flag) unchanged,
and changes the pressed set only by discarding the released key — an
element survives exactly when it was pressed and is not that key. -/
theorem C9_release_pure_removal (s : ListenerState) (k : Key) :
    (stepEvent s (.release k)).2 = false ∧
      (stepEvent s (.release k)).1.lastToggle = s.lastToggle ∧
      (stepEvent s (.release k)).1.kb = s.kb ∧
      ∀ j : Key, j ∈ (stepEvent s (.release k)).1.pressed ↔
        (j ∈ s.pressed ∧ j ≠ k) := by
  refine ⟨rfl, rfl, rfl, ?_⟩
  intro j
  simp only [stepEvent, onRelease, Finset.mem_erase]
  tauto

/-- C10: `__init__` sets the last-toggle timestamp to 0.0 with no
"never toggled" special case, so the very first press of "1" from the
fresh state fires exactly when the monotonic clock reading is at least
0.4. -/
theorem C10_first_press_iff :
    (∀ kb : Bool, (initListener kb).lastToggle = 0) ∧
    ∀ now : ℚ, ((onPress (initListener true) (Key.keyCode '1') now).fired = true
        ↔ debounceSeconds ≤ now) := by
  refine ⟨fun kb => rfl, fun now => ?_⟩
  have hstep := onPress_one (initListener true) rfl now
  by_cases h : debounceSeconds ≤ now - (initListener true).lastToggle
  · rw [if_pos h] at hstep
    rw [hstep]
    simp [initListener] at h
    simp [h]
  · rw [if_neg h] at hstep
    rw [hstep]
    simp [initListener] at h
    simp
    linarith

/-- C5 counterexample: with pynput missing, `start` does print the
warning and return without starting anything, but the overlay is NOT
permanently hidden: at t = 1 s it is shown, because `main`'s
`initial_hint` toggles it at 0.3 s regardless of the listener. -/
theorem C5_counterexample :
    startListener false = ([pynputWarning], false) ∧
      visibleAt hintToggleTimes 1 = true := by
  constructor
  · rfl
  · norm_num [visibleAt, hintToggleTimes, List.countP_cons, List.countP_nil]

/-- C5 amended: when pynput fails to import, `start` prints the warning
and returns without raising and without starting a listener, so the
hint's two toggles (0.3 s and 2.3 s) are the only ones; outside that
hint window the overlay is hidden, and after 2.3 s it stays hidden for
the life of the process. -/
theorem C5_amended :
    startListener false = ([pynputWarning], false) ∧
    ∀ t : ℚ, (t < 3/10 ∨ 3/10 + 2 ≤ t) →
      visibleAt hintToggleTimes t = false := by
  refine ⟨rfl, fun t h => ?_⟩
  rcases h with h | h
  · have h1 : ¬ (3/10 : ℚ) ≤ t := by linarith
    have h2 : ¬ (3/10 + 2 : ℚ) ≤ t := by linarith
    simp [visibleAt, hintToggleTimes, List.countP_cons, List.countP_nil, h1, h2]
  · have h1 : (3/10 : ℚ) ≤ t := by linarith
    simp [visibleAt, hintToggleTimes, List.countP_cons, List.countP_nil, h1, h]

/-- Witness for C5 amended: at t = 5 s (after the hint) the overlay is
hidden. -/
theorem C5_amended_witness :
    startListener false = ([pynputWarning], false) ∧
      visibleAt hintToggleTimes 5 = false :=
  ⟨C5_amended.1, C5_amended.2 5 (Or.inr (by norm_num))⟩

/-- C6: `toggle_visibility` twice returns the window to its original
visibility state: the `_is_visible` flag is unconditionally restored,
and from any state whose shown flag agrees with `_is_visible` (as in
every reachable state) two toggles are the identity on the whole
state. -/
theorem C6_double_toggle_id :
    (∀ s : OverlayState,
        (toggleVisibility (toggleVisibility s)).isVisible = s.isVisible) ∧
    ∀ s : OverlayState, s.shown = s.isVisible →
      toggleVisibility (toggleVisibility s) = s := by
  constructor
  · intro s; simp [toggleVisibility]
  · intro s h
    cases s with
    | mk v p sh =>
      simp only at h
      simp [toggleVisibility, h]

/-- Witness for C6 from the freshly constructed (hidden) overlay. -/
theorem C6_double_toggle_id_witness :
    (toggleVisibility (toggleVisibility (initOverlay ⟨0, 0⟩))).isVisible
        = (initOverlay ⟨0, 0⟩).isVisible ∧
      toggleVisibility (toggleVisibility (initOverlay ⟨0, 0⟩)) = initOverlay ⟨0, 0⟩ :=
  ⟨C6_double_toggle_id.1 (initOverlay ⟨0, 0⟩),
   C6_double_toggle_id.2 (initOverlay ⟨0, 0⟩) rfl⟩

/-- C7: the position is computed once at construction as the available
area's top-left corner plus the 24-pixel margin, `toggle_visibility`
never changes it, and hence after any number of toggles it is still the
constructed position. -/
theorem C7_position_fixed :
    (∀ g : Geometry, (initOverlay g).pos = (g.left + 24, g.top + 24)) ∧
    (∀ s : OverlayState, (toggleVisibility s).pos = s.pos) ∧
    ∀ (g : Geometry) (n : ℕ),
      (toggleVisibility^[n] (initOverlay g)).pos = (g.left + 24, g.top + 24) := by
  refine ⟨fun g => rfl, fun s => rfl, fun g n => ?_⟩
  induction n with
  | zero => rfl
  | succ n ih => rw [Function.iterate_succ_apply']; simpa [toggleVisibility] using ih

/-- C8: for every outcome of `app.exec()` — a normal return code or a
propagating exception — `main` performs its steps in order ending with
`listener.stop()` before returning, and its result is exactly the
loop's outcome (`int(rc)` on a normal return, the same exception
otherwise). -/
theorem C8_main_stops_and_returns (o : Except String Int) :
    (mainModel o).1 = [MainAction.warnWayland, MainAction.startL,
        MainAction.execLoop, MainAction.stopL] ∧
      (mainModel o).2 = o := by
  constructor <;> rfl

end OverlayRules
